import Mathlib

/-!
Shallow embedding of the PX4 resettable integrator
(src/drivers/device/integrator.h).

The C type uint64_t (hrt_abstime) is modelled as Nat with an explicit
reduction modulo 2 ^ 64 wherever the C arithmetic wraps; the float and
double arithmetic on math.Vector 3 is modelled over the exact rationals.
-/

/-- Width of the C type uint64_t: 2 ^ 64. -/
def W64 : Nat := 2 ^ 64

/-- Wrapping subtraction of uint64_t values, as performed by the C
expression a - b on unsigned 64-bit operands. -/
def usub64 (a b : Nat) : Nat := (a % W64 + (W64 - b % W64)) % W64

/-- The 3-vector type math.Vector 3 of integrator.h, with exact rational
components in place of float components. -/
structure Vec3 where
  x : ℚ
  y : ℚ
  z : ℚ
deriving DecidableEq

namespace Vec3

/-- Componentwise addition of math.Vector 3. -/
def add (a b : Vec3) : Vec3 := ⟨a.x + b.x, a.y + b.y, a.z + b.z⟩

instance : Add Vec3 := ⟨add⟩

/-- Multiplication of a math.Vector 3 by a scalar. -/
def smul (v : Vec3) (c : ℚ) : Vec3 := ⟨v.x * c, v.y * c, v.z * c⟩

/-- The cross product, written as the percent operator on math.Vector 3. -/
def cross (a b : Vec3) : Vec3 :=
  ⟨a.y * b.z - a.z * b.y, a.z * b.x - a.x * b.z, a.x * b.y - a.y * b.x⟩

/-- The zero vector (0, 0, 0). -/
def zero : Vec3 := ⟨0, 0, 0⟩

/-- Predicate: the vector v is a scalar multiple of the direction d. -/
def onLine (d v : Vec3) : Prop := ∃ c : ℚ, v = d.smul c

end Vec3

/-- The private state of class Integrator: one field per C member, with
the function-pointer member _auto_callback modelled by whether it is
non-null (the constructor sets it to nullptr and nothing assigns it). -/
structure Integrator where
  auto_reset_interval : Nat
  last_integration : Nat
  last_auto : Nat
  integral_auto : Vec3
  integral_read : Vec3
  last_val : Vec3
  last_delta : Vec3
  auto_callback : Bool
  coning_comp_on : Bool
deriving DecidableEq

/-- Integrator::Integrator(auto_reset_interval, coning_compensation):
every timestamp field and both accumulators start at zero, the callback
pointer starts null. -/
def Integrator.init (auto_reset_interval : Nat) (coning_compensation : Bool) : Integrator :=
  { auto_reset_interval := auto_reset_interval % W64
    last_integration := 0
    last_auto := 0
    integral_auto := Vec3.zero
    integral_read := Vec3.zero
    last_val := Vec3.zero
    last_delta := Vec3.zero
    auto_callback := false
    coning_comp_on := coning_compensation }

/-- The per-step increment computed by Integrator::put on an initialized
state, for an already wrapped timestamp ts: the trapezoid
(val + _last_val) * dt * 0.5 with dt = (ts - _last_integration) / 1e6,
plus, when coning compensation is on, the correction
((_integral_auto + _last_delta * (1/6)) % i) * 0.5. -/
def Integrator.incrementAt (s : Integrator) (ts : Nat) (val : Vec3) : Vec3 :=
  let dt : ℚ := (usub64 ts s.last_integration : ℚ) / 1000000
  let i := ((val + s.last_val).smul dt).smul (1 / 2)
  if s.coning_comp_on then
    i + ((s.integral_auto + s.last_delta.smul (1 / 6)).cross i).smul (1 / 2)
  else
    i

/-- Everything Integrator::put communicates to its caller: the returned
bool, the state after the call, the final contents of the by-reference
output parameters integral and integral_dt, and whether the auto-reset
callback branch ran. -/
structure PutResult where
  did_reset : Bool
  state : Integrator
  integral : Vec3
  integral_dt : Nat
  callback_invoked : Bool
deriving DecidableEq

/-- Integrator::put(timestamp, val, integral, integral_dt).  The caller
passes the prior contents of the by-reference parameters integral and
integral_dt; the result carries their contents after the call. -/
def Integrator.put (s : Integrator) (timestamp : Nat) (val integral : Vec3)
    (integral_dt : Nat) : PutResult :=
  let ts := timestamp % W64
  if s.last_integration = 0 then
    { did_reset := false
      state := { s with last_integration := ts, last_auto := ts, last_val := val }
      integral := integral
      integral_dt := integral_dt
      callback_invoked := false }
  else
    let i := s.incrementAt ts val
    let s1 : Integrator :=
      { s with
        integral_auto := s.integral_auto + i
        integral_read := s.integral_read + i
        last_integration := ts
        last_val := val
        last_delta := i }
    if usub64 ts s.last_auto > s.auto_reset_interval then
      { did_reset := true
        state := { s1 with last_auto := ts, integral_auto := Vec3.zero }
        integral := s1.integral_auto
        integral_dt := usub64 ts s.last_auto
        callback_invoked := s.auto_callback }
    else
      { did_reset := false
        state := s1
        integral := integral
        integral_dt := integral_dt
        callback_invoked := false }

/-- Integrator::get(): returns _integral_auto, no state change. -/
def Integrator.get (s : Integrator) : Vec3 := s.integral_auto

/-- Integrator::read(auto_reset): returns _integral_read and, when
auto_reset is true, zeroes _integral_read. -/
def Integrator.read (s : Integrator) (auto_reset : Bool) : Vec3 × Integrator :=
  (s.integral_read, if auto_reset then { s with integral_read := Vec3.zero } else s)

/-- The sentinel-based uninitialized state: _last_integration holds 0. -/
def Integrator.uninitialized (s : Integrator) : Prop := s.last_integration = 0

instance (s : Integrator) : Decidable s.uninitialized :=
  inferInstanceAs (Decidable (s.last_integration = 0))

/-- One public mutating call on an Integrator: either a put with its four
arguments or a read with its flag. -/
inductive IntOp where
  | opPut (t : Nat) (v ig : Vec3) (igdt : Nat)
  | opRead (b : Bool)
deriving DecidableEq

/-- Run one operation; the Bool records whether the auto-reset callback
branch inside put ran during this call. -/
def Integrator.step (s : Integrator) : IntOp → Integrator × Bool
  | IntOp.opPut t v ig igdt =>
      let r := s.put t v ig igdt
      (r.state, r.callback_invoked)
  | IntOp.opRead b => ((s.read b).2, false)

/-- Run a sequence of operations, collecting for each one whether the
auto-reset callback branch ran. -/
def Integrator.callbackTrace (s : Integrator) : List IntOp → List Bool
  | [] => []
  | op :: ops =>
      let p := s.step op
      p.2 :: p.1.callbackTrace ops

/-- Run a sequence of put calls (output parameters seeded with zeros),
collecting the per-call return value, output parameters, and the two
accumulators of the state after the call. -/
def Integrator.putTrace (s : Integrator) :
    List (Nat × Vec3) → List (Bool × Vec3 × Nat × Vec3 × Vec3)
  | [] => []
  | (t, v) :: rest =>
      let r := s.put t v Vec3.zero 0
      (r.did_reset, r.integral, r.integral_dt, r.state.integral_auto,
        r.state.integral_read) :: r.state.putTrace rest

/-- Override the coning-compensation flag in the state component of a put
result, leaving everything else alone. -/
def PutResult.withConing (r : PutResult) (b : Bool) : PutResult :=
  { r with state := { r.state with coning_comp_on := b } }

/-- The concrete scenario of the spec: interval 4000 microseconds, coning
disabled. -/
def scenarioS0 : Integrator := Integrator.init 4000 false

/-- First call of the concrete scenario: put(1000, (0, 0, 0)). -/
def scenarioR1 : PutResult := scenarioS0.put 1000 ⟨0, 0, 0⟩ Vec3.zero 0

/-- Second call of the concrete scenario: put(5000, (2, 0, 0)). -/
def scenarioR2 : PutResult := scenarioR1.state.put 5000 ⟨2, 0, 0⟩ Vec3.zero 0

/-- Third call of the concrete scenario: put(5001, (2, 0, 0)). -/
def scenarioR3 : PutResult := scenarioR2.state.put 5001 ⟨2, 0, 0⟩ Vec3.zero 0

/-! Helper lemmas about the vector algebra and the wrapping subtraction. -/

theorem vadd_def (a b : Vec3) : a + b = ⟨a.x + b.x, a.y + b.y, a.z + b.z⟩ := rfl

theorem vzero_add (v : Vec3) : Vec3.zero + v = v := by
  cases v; simp [vadd_def, Vec3.zero]

theorem vadd_zero (v : Vec3) : v + Vec3.zero = v := by
  cases v; simp [vadd_def, Vec3.zero]

theorem vec3_add_comm (a b : Vec3) : a + b = b + a := by
  cases a; cases b
  simp only [vadd_def, Vec3.mk.injEq]
  refine ⟨by ring, by ring, by ring⟩

theorem vsmul_zero (d : Vec3) : d.smul 0 = Vec3.zero := by
  cases d; simp [Vec3.smul, Vec3.zero]

theorem vzero_smul (c : ℚ) : Vec3.zero.smul c = Vec3.zero := by
  simp [Vec3.smul, Vec3.zero]

theorem vsmul_smul (d : Vec3) (a b : ℚ) : (d.smul a).smul b = d.smul (a * b) := by
  cases d
  simp only [Vec3.smul, Vec3.mk.injEq]
  refine ⟨by ring, by ring, by ring⟩

theorem vsmul_add (d : Vec3) (a b : ℚ) : d.smul a + d.smul b = d.smul (a + b) := by
  cases d
  simp only [Vec3.smul, vadd_def, Vec3.mk.injEq]
  refine ⟨by ring, by ring, by ring⟩

theorem vcross_smul_smul (d : Vec3) (a b : ℚ) :
    (d.smul a).cross (d.smul b) = Vec3.zero := by
  cases d
  simp only [Vec3.smul, Vec3.cross, Vec3.zero, Vec3.mk.injEq]
  refine ⟨by ring, by ring, by ring⟩

theorem onLine_zero (d : Vec3) : d.onLine Vec3.zero :=
  ⟨0, (vsmul_zero d).symm⟩

theorem onLine_add {d u v : Vec3} (hu : d.onLine u) (hv : d.onLine v) :
    d.onLine (u + v) := by
  obtain ⟨a, rfl⟩ := hu
  obtain ⟨b, rfl⟩ := hv
  exact ⟨a + b, vsmul_add d a b⟩

theorem onLine_smul {d v : Vec3} (c : ℚ) (hv : d.onLine v) :
    d.onLine (v.smul c) := by
  obtain ⟨a, rfl⟩ := hv
  exact ⟨a * c, vsmul_smul d a c⟩

theorem usub64_eq_sub {a b : Nat} (hba : b ≤ a) (ha : a < W64) :
    usub64 a b = a - b := by
  unfold usub64 W64 at *
  omega

/-- Claim C3: the first put on a freshly constructed Integrator records the
timestamp into both last_integration and last_auto, records the value into
last_val, performs no integration (both accumulators stay zero), returns
did_reset = false, and get() immediately afterwards returns the zero
vector. -/
theorem C3_first_put (interval t igdt : Nat) (coning : Bool) (v ig : Vec3)
    (ht : t < W64) :
    ((Integrator.init interval coning).put t v ig igdt).did_reset = false ∧
    ((Integrator.init interval coning).put t v ig igdt).state.last_integration = t ∧
    ((Integrator.init interval coning).put t v ig igdt).state.last_auto = t ∧
    ((Integrator.init interval coning).put t v ig igdt).state.last_val = v ∧
    ((Integrator.init interval coning).put t v ig igdt).state.integral_auto = Vec3.zero ∧
    ((Integrator.init interval coning).put t v ig igdt).state.integral_read = Vec3.zero ∧
    ((Integrator.init interval coning).put t v ig igdt).state.get = Vec3.zero := by
  simp [Integrator.put, Integrator.init, Integrator.get, Nat.mod_eq_of_lt ht]

/-- Claim C3 witness: the first put at timestamp 1000 with value (1, 2, 3)
on a fresh Integrator with interval 4000. -/
theorem C3_first_put_witness :
    1000 < W64 ∧
    (((Integrator.init 4000 false).put 1000 ⟨1, 2, 3⟩ Vec3.zero 7).did_reset = false ∧
      ((Integrator.init 4000 false).put 1000 ⟨1, 2, 3⟩ Vec3.zero 7).state.last_integration = 1000 ∧
      ((Integrator.init 4000 false).put 1000 ⟨1, 2, 3⟩ Vec3.zero 7).state.last_auto = 1000 ∧
      ((Integrator.init 4000 false).put 1000 ⟨1, 2, 3⟩ Vec3.zero 7).state.last_val = ⟨1, 2, 3⟩ ∧
      ((Integrator.init 4000 false).put 1000 ⟨1, 2, 3⟩ Vec3.zero 7).state.integral_auto = Vec3.zero ∧
      ((Integrator.init 4000 false).put 1000 ⟨1, 2, 3⟩ Vec3.zero 7).state.integral_read = Vec3.zero ∧
      ((Integrator.init 4000 false).put 1000 ⟨1, 2, 3⟩ Vec3.zero 7).state.get = Vec3.zero) :=
  ⟨by decide, C3_first_put 4000 1000 7 false ⟨1, 2, 3⟩ Vec3.zero (by decide)⟩

/-- Claim C6: whenever put returns did_reset = false, the by-reference
output parameters integral and integral_dt are left unmodified. -/
theorem C6_no_reset_frame (s : Integrator) (t : Nat) (v ig : Vec3) (igdt : Nat)
    (h : (s.put t v ig igdt).did_reset = false) :
    (s.put t v ig igdt).integral = ig ∧ (s.put t v ig igdt).integral_dt = igdt := by
  simp only [Integrator.put] at h ⊢
  split_ifs at h ⊢ <;> simp_all

/-- Claim C6 witness: an initializing put returns did_reset = false and
leaves the output parameters (7, 8, 9) and 42 untouched. -/
theorem C6_no_reset_frame_witness :
    ((Integrator.init 4000 false).put 1000 Vec3.zero ⟨7, 8, 9⟩ 42).did_reset = false ∧
    (((Integrator.init 4000 false).put 1000 Vec3.zero ⟨7, 8, 9⟩ 42).integral = ⟨7, 8, 9⟩ ∧
      ((Integrator.init 4000 false).put 1000 Vec3.zero ⟨7, 8, 9⟩ 42).integral_dt = 42) :=
  ⟨by decide, C6_no_reset_frame (Integrator.init 4000 false) 1000 Vec3.zero ⟨7, 8, 9⟩ 42 (by decide)⟩

/-- Claim C5: read(true) returns integral_read and zeroes exactly the
integral_read field; read(false) returns integral_read and changes
nothing; and a put after read(true) produces the same did_reset,
integral_auto and auto-reset timer as the same put without the read. -/
theorem C5_read_frame (s : Integrator) (t : Nat) (v ig : Vec3) (igdt : Nat) :
    (s.read true).1 = s.integral_read ∧
    (s.read true).2 = { s with integral_read := Vec3.zero } ∧
    (s.read false).1 = s.integral_read ∧
    (s.read false).2 = s ∧
    (((s.read true).2).put t v ig igdt).did_reset = (s.put t v ig igdt).did_reset ∧
    (((s.read true).2).put t v ig igdt).state.integral_auto
      = (s.put t v ig igdt).state.integral_auto ∧
    (((s.read true).2).put t v ig igdt).state.last_auto
      = (s.put t v ig igdt).state.last_auto := by
  cases s
  simp only [Integrator.read, Integrator.put, Integrator.incrementAt]
  split_ifs <;> simp_all

/-- Claim C1: on an already-initialized Integrator, put resets exactly
when timestamp - last_auto (in uint64 arithmetic) strictly exceeds
auto_reset_interval; on a reset it outputs the pre-reset integral_auto
(which includes the increment of this call) and the elapsed time, zeroes
integral_auto and moves last_auto to the timestamp; otherwise it returns
did_reset = false, leaves last_auto alone, and integral_auto has just
accumulated the increment of this call. -/
theorem C1_auto_reset (s : Integrator) (t : Nat) (v ig : Vec3) (igdt : Nat)
    (h0 : ¬ s.last_integration = 0) (ht : t < W64) :
    ((s.put t v ig igdt).did_reset = true ↔
      usub64 t s.last_auto > s.auto_reset_interval) ∧
    (usub64 t s.last_auto > s.auto_reset_interval →
      (s.put t v ig igdt).integral = s.integral_auto + s.incrementAt t v ∧
      (s.put t v ig igdt).integral_dt = usub64 t s.last_auto ∧
      (s.put t v ig igdt).state.integral_auto = Vec3.zero ∧
      (s.put t v ig igdt).state.last_auto = t) ∧
    (¬ usub64 t s.last_auto > s.auto_reset_interval →
      (s.put t v ig igdt).did_reset = false ∧
      (s.put t v ig igdt).state.integral_auto = s.integral_auto + s.incrementAt t v ∧
      (s.put t v ig igdt).state.last_auto = s.last_auto) := by
  have hts : t % W64 = t := Nat.mod_eq_of_lt ht
  simp only [Integrator.put, hts, h0, if_false, reduceIte]
  split_ifs with hr <;> simp_all

/-- Claim C1 witness: after an initializing put at timestamp 1000 on a
fresh Integrator with interval 4000, a put at timestamp 5001 satisfies
the reset characterization. -/
theorem C1_auto_reset_witness :
    (¬ ((Integrator.init 4000 false).put 1000 ⟨2, 0, 0⟩ Vec3.zero 0).state.last_integration = 0 ∧
      5001 < W64) ∧
    ((((((Integrator.init 4000 false).put 1000 ⟨2, 0, 0⟩ Vec3.zero 0).state.put 5001 ⟨2, 0, 0⟩ Vec3.zero 0).did_reset = true ↔
      usub64 5001 ((Integrator.init 4000 false).put 1000 ⟨2, 0, 0⟩ Vec3.zero 0).state.last_auto >
        ((Integrator.init 4000 false).put 1000 ⟨2, 0, 0⟩ Vec3.zero 0).state.auto_reset_interval) ∧
    (usub64 5001 ((Integrator.init 4000 false).put 1000 ⟨2, 0, 0⟩ Vec3.zero 0).state.last_auto >
        ((Integrator.init 4000 false).put 1000 ⟨2, 0, 0⟩ Vec3.zero 0).state.auto_reset_interval →
      (((Integrator.init 4000 false).put 1000 ⟨2, 0, 0⟩ Vec3.zero 0).state.put 5001 ⟨2, 0, 0⟩ Vec3.zero 0).integral =
        ((Integrator.init 4000 false).put 1000 ⟨2, 0, 0⟩ Vec3.zero 0).state.integral_auto +
          ((Integrator.init 4000 false).put 1000 ⟨2, 0, 0⟩ Vec3.zero 0).state.incrementAt 5001 ⟨2, 0, 0⟩ ∧
      (((Integrator.init 4000 false).put 1000 ⟨2, 0, 0⟩ Vec3.zero 0).state.put 5001 ⟨2, 0, 0⟩ Vec3.zero 0).integral_dt =
        usub64 5001 ((Integrator.init 4000 false).put 1000 ⟨2, 0, 0⟩ Vec3.zero 0).state.last_auto ∧
      (((Integrator.init 4000 false).put 1000 ⟨2, 0, 0⟩ Vec3.zero 0).state.put 5001 ⟨2, 0, 0⟩ Vec3.zero 0).state.integral_auto = Vec3.zero ∧
      (((Integrator.init 4000 false).put 1000 ⟨2, 0, 0⟩ Vec3.zero 0).state.put 5001 ⟨2, 0, 0⟩ Vec3.zero 0).state.last_auto = 5001) ∧
    (¬ usub64 5001 ((Integrator.init 4000 false).put 1000 ⟨2, 0, 0⟩ Vec3.zero 0).state.last_auto >
        ((Integrator.init 4000 false).put 1000 ⟨2, 0, 0⟩ Vec3.zero 0).state.auto_reset_interval →
      (((Integrator.init 4000 false).put 1000 ⟨2, 0, 0⟩ Vec3.zero 0).state.put 5001 ⟨2, 0, 0⟩ Vec3.zero 0).did_reset = false ∧
      (((Integrator.init 4000 false).put 1000 ⟨2, 0, 0⟩ Vec3.zero 0).state.put 5001 ⟨2, 0, 0⟩ Vec3.zero 0).state.integral_auto =
        ((Integrator.init 4000 false).put 1000 ⟨2, 0, 0⟩ Vec3.zero 0).state.integral_auto +
          ((Integrator.init 4000 false).put 1000 ⟨2, 0, 0⟩ Vec3.zero 0).state.incrementAt 5001 ⟨2, 0, 0⟩ ∧
      (((Integrator.init 4000 false).put 1000 ⟨2, 0, 0⟩ Vec3.zero 0).state.put 5001 ⟨2, 0, 0⟩ Vec3.zero 0).state.last_auto =
        ((Integrator.init 4000 false).put 1000 ⟨2, 0, 0⟩ Vec3.zero 0).state.last_auto))) :=
  ⟨⟨by decide, by decide⟩,
    C1_auto_reset ((Integrator.init 4000 false).put 1000 ⟨2, 0, 0⟩ Vec3.zero 0).state
      5001 ⟨2, 0, 0⟩ Vec3.zero 0 (by decide) (by decide)⟩

/-- Claim C10: an auto-reset inside put changes only integral_auto (to
zero) and last_auto (to the timestamp); last_integration, last_val,
last_delta and integral_read keep the values written earlier in the same
call, so the last sample, the last delta and the read accumulator survive
the reset. -/
theorem C10_reset_effects (s : Integrator) (t : Nat) (v ig : Vec3) (igdt : Nat)
    (h0 : ¬ s.last_integration = 0) (ht : t < W64)
    (hr : usub64 t s.last_auto > s.auto_reset_interval) :
    (s.put t v ig igdt).did_reset = true ∧
    (s.put t v ig igdt).state =
      { s with
        integral_auto := Vec3.zero
        integral_read := s.integral_read + s.incrementAt t v
        last_integration := t
        last_auto := t
        last_val := v
        last_delta := s.incrementAt t v } := by
  have hts : t % W64 = t := Nat.mod_eq_of_lt ht
  simp only [Integrator.put, hts, h0, if_false, reduceIte, if_pos hr]
  simp

/-- Claim C10 witness: the reset on the put at timestamp 5001 after an
initializing put at timestamp 1000 keeps everything but integral_auto and
last_auto. -/
theorem C10_reset_effects_witness :
    (¬ ((Integrator.init 4000 false).put 1000 ⟨2, 0, 0⟩ Vec3.zero 0).state.last_integration = 0 ∧
      5001 < W64 ∧
      usub64 5001 ((Integrator.init 4000 false).put 1000 ⟨2, 0, 0⟩ Vec3.zero 0).state.last_auto >
        ((Integrator.init 4000 false).put 1000 ⟨2, 0, 0⟩ Vec3.zero 0).state.auto_reset_interval) ∧
    ((((Integrator.init 4000 false).put 1000 ⟨2, 0, 0⟩ Vec3.zero 0).state.put 5001 ⟨3, 0, 0⟩ Vec3.zero 0).did_reset = true ∧
      (((Integrator.init 4000 false).put 1000 ⟨2, 0, 0⟩ Vec3.zero 0).state.put 5001 ⟨3, 0, 0⟩ Vec3.zero 0).state =
        { ((Integrator.init 4000 false).put 1000 ⟨2, 0, 0⟩ Vec3.zero 0).state with
          integral_auto := Vec3.zero
          integral_read := ((Integrator.init 4000 false).put 1000 ⟨2, 0, 0⟩ Vec3.zero 0).state.integral_read +
            ((Integrator.init 4000 false).put 1000 ⟨2, 0, 0⟩ Vec3.zero 0).state.incrementAt 5001 ⟨3, 0, 0⟩
          last_integration := 5001
          last_auto := 5001
          last_val := ⟨3, 0, 0⟩
          last_delta := ((Integrator.init 4000 false).put 1000 ⟨2, 0, 0⟩ Vec3.zero 0).state.incrementAt 5001 ⟨3, 0, 0⟩ }) :=
  ⟨⟨by decide, by decide, by decide⟩,
    C10_reset_effects ((Integrator.init 4000 false).put 1000 ⟨2, 0, 0⟩ Vec3.zero 0).state
      5001 ⟨3, 0, 0⟩ Vec3.zero 0 (by decide) (by decide) (by decide)⟩

/-- Claim C8 counterexample: a first put with timestamp 0 does NOT move a
fresh Integrator out of the uninitialized state (the code stores 0 back
into the sentinel field), and a put with timestamp 0 on a running
Integrator puts it back into the uninitialized state, so the transition
is neither unconditional nor irreversible for arbitrary arguments. -/
theorem C8_counterexample :
    ((Integrator.init 4000 false).put 0 ⟨1, 2, 3⟩ Vec3.zero 0).state.uninitialized ∧
    ((((Integrator.init 4000 false).put 5 ⟨1, 2, 3⟩ Vec3.zero 0).state.put 0
        ⟨1, 2, 3⟩ Vec3.zero 0).state.uninitialized ∧
      ¬ ((Integrator.init 4000 false).put 5 ⟨1, 2, 3⟩ Vec3.zero 0).state.uninitialized) := by
  refine ⟨by decide, by decide, by decide⟩

/-- Claim C8 (amended): every Integrator is in exactly one of
{uninitialized, running}; a fresh Integrator is uninitialized, any put
whose timestamp is nonzero modulo 2 ^ 64 leaves the Integrator running
(in particular the first such put performs the transition, and no later
such put reverts it), and read never changes last_integration. -/
theorem C8_state_machine (interval t igdt : Nat) (coning b : Bool) (s : Integrator)
    (v ig : Vec3) (ht : ¬ t % W64 = 0) :
    (Integrator.init interval coning).uninitialized ∧
    ¬ ((s.put t v ig igdt).state.uninitialized) ∧
    ((s.read b).2).last_integration = s.last_integration := by
  refine ⟨rfl, ?_, ?_⟩
  · simp only [Integrator.put, Integrator.uninitialized]
    split_ifs <;> simp_all
  · cases b <;> simp [Integrator.read]

/-- Claim C8 witness: instantiation at timestamp 5 on an arbitrary
concrete running-or-not state. -/
theorem C8_state_machine_witness :
    (¬ (5 : Nat) % W64 = 0) ∧
    ((Integrator.init 4000 true).uninitialized ∧
      ¬ (((Integrator.init 9 false).put 5 ⟨1, 2, 3⟩ Vec3.zero 0).state.uninitialized) ∧
      (((Integrator.init 9 false).read true).2).last_integration =
        (Integrator.init 9 false).last_integration) :=
  ⟨by decide,
    C8_state_machine 4000 5 0 true true (Integrator.init 9 false) ⟨1, 2, 3⟩ Vec3.zero (by decide)⟩

/-- Claim C4 counterexample: in the concrete scenario the integral
reported by the third call is exactly (2001/500000, 0, 0) = (0.004002,
0, 0); its first component is not within 1/1000000 of the claimed value
0.0040005 = 40005/10000000, so the claimed "approximately (0.0040005, 0,
0)" (off by 1.5e-6, larger than the 2e-6 increment the call itself adds)
does not hold. -/
theorem C4_counterexample :
    scenarioR3.integral = ⟨2001 / 500000, 0, 0⟩ ∧
    ¬ |scenarioR3.integral.x - 40005 / 10000000| ≤ 1 / 1000000 := by
  have h : scenarioR3.integral = ⟨2001 / 500000, 0, 0⟩ := by
    norm_num [scenarioR3, scenarioR2, scenarioR1, scenarioS0, Integrator.init,
      Integrator.put, Integrator.incrementAt, usub64, W64, Vec3.smul, vadd_def,
      Vec3.zero, Vec3.cross]
  rw [h]
  norm_num
  rw [abs_of_pos (by norm_num : (0 : ℚ) < 3 / 2000000)]
  norm_num

/-- Claim C4 (amended): on a fresh Integrator with interval 4000 and
coning disabled, put(1000, (0,0,0)), put(5000, (2,0,0)), put(5001,
(2,0,0)) return false, false, true; the second call accumulates the
increment (1/250, 0, 0) = (0.004, 0, 0) and does not reset because 4000
is not strictly greater than 4000; the third call resets, reporting the
integral (2001/500000, 0, 0) = (0.004002, 0, 0) and elapsed time 4001,
with integral_auto equal to the zero vector afterwards. -/
theorem C4_scenario :
    scenarioR1.did_reset = false ∧
    scenarioR2.did_reset = false ∧
    scenarioR2.state.integral_auto = ⟨1 / 250, 0, 0⟩ ∧
    scenarioR3.did_reset = true ∧
    scenarioR3.integral = ⟨2001 / 500000, 0, 0⟩ ∧
    scenarioR3.integral_dt = 4001 ∧
    scenarioR3.state.integral_auto = Vec3.zero := by
  norm_num [scenarioR3, scenarioR2, scenarioR1, scenarioS0, Integrator.init,
    Integrator.put, Integrator.incrementAt, usub64, W64, Vec3.smul, vadd_def,
    Vec3.zero, Vec3.cross]

/-- Claim C2: with coning disabled, after an initializing put(t0, v0) on a
fresh Integrator followed by put(t1, v1) with t1 > t0 and no auto-reset
triggered, get() returns exactly the single trapezoidal increment
(v0 + v1) * dt * 0.5 with dt = (t1 - t0) / 1000000 as an exact real
quantity. -/
theorem C2_trapezoid (interval t0 t1 : Nat) (v0 v1 : Vec3)
    (h0 : t0 ≠ 0) (h01 : t0 < t1) (h1 : t1 < W64) (hW : interval < W64)
    (hI : ¬ usub64 t1 t0 > interval) :
    (((Integrator.init interval false).put t0 v0 Vec3.zero 0).state.put t1 v1 Vec3.zero 0).did_reset = false ∧
    (((Integrator.init interval false).put t0 v0 Vec3.zero 0).state.put t1 v1 Vec3.zero 0).state.get
      = ((v0 + v1).smul (((t1 : ℚ) - (t0 : ℚ)) / 1000000)).smul (1 / 2) := by
  have ht0 : t0 < W64 := Nat.lt_trans h01 h1
  have hs1 : ((Integrator.init interval false).put t0 v0 Vec3.zero 0).state
      = { Integrator.init interval false with
          last_integration := t0, last_auto := t0, last_val := v0 } := by
    simp [Integrator.put, Integrator.init, Nat.mod_eq_of_lt ht0]
  rw [hs1]
  have hcast : ((usub64 t1 t0 : Nat) : ℚ) = (t1 : ℚ) - (t0 : ℚ) := by
    rw [usub64_eq_sub (Nat.le_of_lt h01) h1, Nat.cast_sub (Nat.le_of_lt h01)]
  simp only [Integrator.put, Integrator.incrementAt, Integrator.get, Integrator.init,
    Nat.mod_eq_of_lt h1, Nat.mod_eq_of_lt hW, h0, if_false, reduceIte, hI, hcast,
    Bool.false_eq_true]
  refine ⟨trivial, ?_⟩
  rw [vzero_add, vec3_add_comm v1 v0]

/-- Claim C2 witness: interval 4000, initializing put at 1000 with
(0, 0, 0), second put at 5000 with (2, 0, 0). -/
theorem C2_trapezoid_witness :
    ((1000 : Nat) ≠ 0 ∧ 1000 < 5000 ∧ 5000 < W64 ∧ 4000 < W64 ∧
      ¬ usub64 5000 1000 > 4000) ∧
    ((((Integrator.init 4000 false).put 1000 ⟨0, 0, 0⟩ Vec3.zero 0).state.put 5000 ⟨2, 0, 0⟩ Vec3.zero 0).did_reset = false ∧
      (((Integrator.init 4000 false).put 1000 ⟨0, 0, 0⟩ Vec3.zero 0).state.put 5000 ⟨2, 0, 0⟩ Vec3.zero 0).state.get
        = (((⟨0, 0, 0⟩ : Vec3) + ⟨2, 0, 0⟩).smul ((((5000 : Nat) : ℚ) - ((1000 : Nat) : ℚ)) / 1000000)).smul (1 / 2)) :=
  ⟨⟨by decide, by decide, by decide, by decide, by decide⟩,
    C2_trapezoid 4000 1000 5000 ⟨0, 0, 0⟩ ⟨2, 0, 0⟩ (by decide) (by decide)
      (by decide) (by decide) (by decide)⟩

/-- put never changes the callback field: no public interface assigns it. -/
theorem put_preserves_callback (s : Integrator) (t : Nat) (v ig : Vec3) (igdt : Nat) :
    (s.put t v ig igdt).state.auto_callback = s.auto_callback := by
  simp only [Integrator.put]
  split_ifs <;> rfl

/-- When the callback field is unset, put does not run the callback
branch. -/
theorem put_callback_unset (s : Integrator) (t : Nat) (v ig : Vec3) (igdt : Nat)
    (h : s.auto_callback = false) :
    (s.put t v ig igdt).callback_invoked = false := by
  simp only [Integrator.put]
  split_ifs <;> simp [h]

/-- read never changes the callback field. -/
theorem read_preserves_callback (s : Integrator) (b : Bool) :
    ((s.read b).2).auto_callback = s.auto_callback := by
  cases b <;> simp [Integrator.read]

/-- From any state whose callback field is unset, no operation sequence
ever runs the callback branch. -/
theorem callbackTrace_all_false (ops : List IntOp) :
    ∀ s : Integrator, s.auto_callback = false →
      s.callbackTrace ops = List.replicate ops.length false := by
  induction ops with
  | nil => intro s _; rfl
  | cons op rest ih =>
      intro s h
      cases op with
      | opPut t v ig igdt =>
          simp only [Integrator.callbackTrace, Integrator.step, List.length_cons,
            List.replicate, List.cons.injEq]
          exact ⟨put_callback_unset s t v ig igdt h,
            ih _ ((put_preserves_callback s t v ig igdt).trans h)⟩
      | opRead b =>
          simp only [Integrator.callbackTrace, Integrator.step, List.length_cons,
            List.replicate, List.cons.injEq]
          exact ⟨trivial, ih _ ((read_preserves_callback s b).trans h)⟩

/-- Claim C9: the auto-reset callback is never invoked: the constructor
leaves it null and no member function assigns it, so along any sequence
of put and read operations on a freshly constructed Integrator the
callback branch inside put never runs. -/
theorem C9_callback_never (interval : Nat) (coning : Bool) (ops : List IntOp) :
    Integrator.callbackTrace (Integrator.init interval coning) ops
      = List.replicate ops.length false :=
  callbackTrace_all_false ops (Integrator.init interval coning) rfl

/-- When every vector the coning correction sees lies on one line, the
correction term is the zero vector and the increment reduces to the bare
trapezoid, whatever the compensation flag. -/
theorem incrementAt_coning_drop (d : Vec3) (s : Integrator) (ts : Nat) (v : Vec3)
    (hA : d.onLine s.integral_auto) (hD : d.onLine s.last_delta)
    (hV : d.onLine s.last_val) (hv : d.onLine v) :
    s.incrementAt ts v
      = ((v + s.last_val).smul ((usub64 ts s.last_integration : ℚ) / 1000000)).smul (1 / 2) := by
  simp only [Integrator.incrementAt]
  split_ifs with hc
  · obtain ⟨a, ha⟩ := onLine_add hA (onLine_smul (1 / 6) hD)
    obtain ⟨b, hb⟩ :=
      onLine_smul (1 / 2)
        (onLine_smul ((usub64 ts s.last_integration : ℚ) / 1000000) (onLine_add hv hV))
    rw [ha, hb, vcross_smul_smul, vzero_smul, vadd_zero]
  · rfl

/-- Under the same parallelism hypotheses the increment itself lies on the
line. -/
theorem incrementAt_onLine (d : Vec3) (s : Integrator) (ts : Nat) (v : Vec3)
    (hA : d.onLine s.integral_auto) (hD : d.onLine s.last_delta)
    (hV : d.onLine s.last_val) (hv : d.onLine v) :
    d.onLine (s.incrementAt ts v) := by
  rw [incrementAt_coning_drop d s ts v hA hD hV hv]
  exact onLine_smul _ (onLine_smul _ (onLine_add hv hV))

/-- One put with coning compensation on equals the same put with coning
compensation off, up to the flag itself, whenever the state and the new
sample lie on one line. -/
theorem put_coning_toggle (d : Vec3) (s : Integrator) (t : Nat) (v ig : Vec3) (igdt : Nat)
    (hA : d.onLine s.integral_auto) (hD : d.onLine s.last_delta)
    (hV : d.onLine s.last_val) (hv : d.onLine v) :
    Integrator.put { s with coning_comp_on := true } t v ig igdt
      = (Integrator.put { s with coning_comp_on := false } t v ig igdt).withConing true := by
  have hi : Integrator.incrementAt { s with coning_comp_on := true } (t % W64) v
      = Integrator.incrementAt { s with coning_comp_on := false } (t % W64) v := by
    rw [incrementAt_coning_drop d { s with coning_comp_on := true } (t % W64) v hA hD hV hv,
      incrementAt_coning_drop d { s with coning_comp_on := false } (t % W64) v hA hD hV hv]
  simp only [Integrator.put, hi, PutResult.withConing]
  split_ifs <;> rfl

/-- The fields read by the coning correction stay on the line across any
put whose sample is on the line. -/
theorem put_state_onLine (d : Vec3) (s : Integrator) (t : Nat) (v ig : Vec3) (igdt : Nat)
    (hA : d.onLine s.integral_auto) (hD : d.onLine s.last_delta)
    (hV : d.onLine s.last_val) (hv : d.onLine v) :
    d.onLine (s.put t v ig igdt).state.integral_auto ∧
    d.onLine (s.put t v ig igdt).state.last_delta ∧
    d.onLine (s.put t v ig igdt).state.last_val := by
  have hi := incrementAt_onLine d s (t % W64) v hA hD hV hv
  simp only [Integrator.put]
  split_ifs
  · exact ⟨hA, hD, hv⟩
  · exact ⟨onLine_zero d, hi, hv⟩
  · exact ⟨onLine_add hA hi, hi, hv⟩

/-- put never changes the coning flag. -/
theorem put_preserves_coning (s : Integrator) (t : Nat) (v ig : Vec3) (igdt : Nat) :
    (s.put t v ig igdt).state.coning_comp_on = s.coning_comp_on := by
  simp only [Integrator.put]
  split_ifs <;> rfl

/-- Overriding the coning flag with its current value is the identity. -/
theorem coning_override_self (s : Integrator) (h : s.coning_comp_on = false) :
    { s with coning_comp_on := false } = s := by
  cases s
  simp_all

/-- Whole-trace version: from any on-line state, toggling the coning flag
does not change the observable put trace when every sample is on the
line. -/
theorem putTrace_coning_toggle (d : Vec3) :
    ∀ (samples : List (Nat × Vec3)) (s : Integrator),
      d.onLine s.integral_auto → d.onLine s.last_delta → d.onLine s.last_val →
      (∀ p ∈ samples, d.onLine p.2) →
      Integrator.putTrace { s with coning_comp_on := true } samples
        = Integrator.putTrace { s with coning_comp_on := false } samples := by
  intro samples
  induction samples with
  | nil => intro s _ _ _ _; rfl
  | cons p rest ih =>
      obtain ⟨t, v⟩ := p
      intro s hA hD hV hall
      have hv : d.onLine v := hall (t, v) (List.mem_cons_self _ _)
      have htail : ∀ q ∈ rest, d.onLine q.2 := fun q hq => hall q (List.mem_cons_of_mem _ hq)
      simp only [Integrator.putTrace]
      rw [put_coning_toggle d s t v Vec3.zero 0 hA hD hV hv]
      simp only [PutResult.withConing]
      have hcf : ((Integrator.put { s with coning_comp_on := false } t v Vec3.zero 0).state).coning_comp_on = false :=
        put_preserves_coning { s with coning_comp_on := false } t v Vec3.zero 0
      obtain ⟨nA, nD, nV⟩ :=
        put_state_onLine d { s with coning_comp_on := false } t v Vec3.zero 0 hA hD hV hv
      have htl := ih (Integrator.put { s with coning_comp_on := false } t v Vec3.zero 0).state nA nD nV htail
      rw [coning_override_self _ hcf] at htl
      rw [htl]

/-- Claim C7: when every sample is a scalar multiple of one fixed
direction vector, an Integrator with coning compensation enabled
produces, call for call, the same put return values, output parameters,
integral_auto and integral_read as one with coning compensation
disabled: the coning correction is the cross product of parallel vectors
and vanishes. -/
theorem C7_coning_parallel (d : Vec3) (interval : Nat) (samples : List (Nat × Vec3))
    (h : ∀ p ∈ samples, d.onLine p.2) :
    Integrator.putTrace (Integrator.init interval true) samples
      = Integrator.putTrace (Integrator.init interval false) samples := by
  have key := putTrace_coning_toggle d samples (Integrator.init interval false)
    (onLine_zero d) (onLine_zero d) (onLine_zero d) h
  exact key

/-- Claim C7 witness: direction (1, 2, 3), samples 2*(1,2,3) at time 5
and 1*(1,2,3) at time 9, interval 4000. -/
theorem C7_coning_parallel_witness :
    (∀ p ∈ [((5 : Nat), (⟨2, 4, 6⟩ : Vec3)), (9, ⟨1, 2, 3⟩)],
        Vec3.onLine ⟨1, 2, 3⟩ p.2) ∧
    Integrator.putTrace (Integrator.init 4000 true) [(5, ⟨2, 4, 6⟩), (9, ⟨1, 2, 3⟩)]
      = Integrator.putTrace (Integrator.init 4000 false) [(5, ⟨2, 4, 6⟩), (9, ⟨1, 2, 3⟩)] := by
  have hmem : ∀ p ∈ [((5 : Nat), (⟨2, 4, 6⟩ : Vec3)), (9, ⟨1, 2, 3⟩)],
      Vec3.onLine ⟨1, 2, 3⟩ p.2 := by
    intro p hp
    simp only [List.mem_cons, List.not_mem_nil, or_false] at hp
    rcases hp with h | h
    · subst h
      exact ⟨2, by norm_num [Vec3.smul]⟩
    · subst h
      exact ⟨1, by norm_num [Vec3.smul]⟩
  exact ⟨hmem, C7_coning_parallel ⟨1, 2, 3⟩ 4000 [(5, ⟨2, 4, 6⟩), (9, ⟨1, 2, 3⟩)] hmem⟩
